import Mathlib

/-!
Shallow embedding of the bibliometrics-regression pipeline
(`src/clean_data.py` and `src/run_regression.py`).

The Cleaner (`clean_data.py main`) is modelled as a pure transformation on
tabular frames: header stripping, the fixed column-rename table, per-cell
tolerant numeric coercion (strip `%`, then parse, `none` on failure, which
models the NaN produced by `pandas.to_numeric(errors="coerce")`), the
`dropna(subset=["document_count", "total_citations"])` row filter, and the
final CSV write modelled as an effect.  `pandas.DataFrame.dropna` raises a
`KeyError` when a subset label is absent; that exception is modelled as the
`CleanErr.keyError` outcome.

The Fitter (`run_regression.py main`) is modelled as a function from the
loaded frame to the list of file-writing effects it performs together with
its outcome.  `sklearn.linear_model.LinearRegression` (fit_intercept=True,
single predictor) is embedded by the closed-form ordinary-least-squares
formulas over exact rationals, and `sklearn.metrics.r2_score` by its
documented definition including its zero-denominator special cases
(score 1 when the residual sum is 0, else 0 when the total sum is 0).
`pandas.DataFrame.nlargest(n, col)` with the default `keep="first"` is
embedded as a stable descending sort by the column followed by `take n`.
`np.nanmin` applied to an empty series raises a `ValueError` ("zero-size
array to reduction operation"); that unhandled exception is modelled as the
`FitErr.emptyReduction` outcome.  Machine floats are idealised as `ℚ`.
-/

namespace BiblioReg

/-! ### Cell-level numeric coercion (clean_data.py lines 29-40) -/

/-- Python's `str.strip()`: remove leading and trailing whitespace. -/
def stripStr (s : String) : String :=
  String.mk (((s.data.dropWhile Char.isWhitespace).reverse.dropWhile Char.isWhitespace).reverse)

/-- `str.replace("%", "", regex=False)`: remove every literal `%`. -/
def stripPercent (s : String) : String := String.mk (s.data.filter (fun c => c ≠ '%'))

/-- Value of a list of decimal digit characters. -/
def digitsVal (cs : List Char) : ℕ := cs.foldl (fun a c => 10 * a + (c.toNat - 48)) 0

/-- All characters are decimal digits. -/
def allDigits (cs : List Char) : Bool := cs.all Char.isDigit

/-- Split a character list at the first `.` (if any). -/
def splitAtDot : List Char → List Char × Option (List Char)
  | [] => ([], none)
  | c :: t =>
      if c = '.' then ([], some t)
      else
        let p := splitAtDot t
        (c :: p.1, p.2)

/-- Parse an unsigned decimal literal (digits, optionally with one decimal
point, at least one digit overall), the numeric grammar accepted by
`pandas.to_numeric` on such strings. -/
def parseUnsignedChars (cs : List Char) : Option ℚ :=
  match splitAtDot cs with
  | (ip, none) =>
      if ip ≠ [] ∧ allDigits ip then some (digitsVal ip) else none
  | (ip, some fp) =>
      if (ip ≠ [] ∨ fp ≠ []) ∧ allDigits ip ∧ allDigits fp then
        some ((digitsVal ip : ℚ) + (digitsVal fp : ℚ) / (10 : ℚ) ^ fp.length)
      else none

/-- Models the string branch of `pandas.to_numeric(errors="coerce")`:
optional sign followed by an unsigned decimal literal; unparsable input
coerces to `none` (the NaN of the source) instead of raising. -/
def parseNum (s : String) : Option ℚ :=
  match s.data with
  | [] => none
  | c :: t =>
      if c = '-' then (parseUnsignedChars t).map (fun q => -q)
      else if c = '+' then parseUnsignedChars t
      else parseUnsignedChars (c :: t)

/-- One cell of the coercion step:
`.astype(str).str.replace("%", "", regex=False)` then
`pd.to_numeric(errors="coerce")` (clean_data.py lines 33-40). -/
def coerceCell (s : String) : Option ℚ := parseNum (stripPercent s)

/-- A whole column is coerced cell by cell (the vectorised pandas
operations act independently on each cell). -/
def coerceColumn (col : List String) : List (Option ℚ) := col.map coerceCell

/-! ### Frames and the Cleaner pipeline (clean_data.py main) -/

/-- A dataframe cell: still-textual, or numeric after coercion
(`Cell.num none` models NaN). -/
inductive Cell where
  | str : String → Cell
  | num : Option ℚ → Cell
deriving DecidableEq

/-- `astype(str)` rendering of a cell.  In the modelled pipeline coercion is
only ever applied to textual cells; the numeric cases are given the pandas
renderings for completeness (`NaN` prints as "nan"). -/
def Cell.asString : Cell → String
  | .str s => s
  | .num none => "nan"
  | .num (some _) => ""

/-- A cell is non-null in the sense of `dropna`. -/
def Cell.notNa : Cell → Bool
  | .num none => false
  | _ => true

/-- Raw CSV frame: header row plus rows of textual cells. -/
structure RawFrame where
  cols : List String
  rows : List (List String)
deriving DecidableEq

/-- A frame whose cells may already be coerced. -/
structure Frame where
  cols : List String
  rows : List (List Cell)
deriving DecidableEq

/-- The fixed rename table of clean_data.py (lines 19-26). -/
def columnMapping : List (String × String) :=
  [("Name", "researcher_name"),
   ("Web of Science Documents", "document_count"),
   ("Times Cited", "total_citations"),
   ("Category Normalized Citation Impact", "cnci"),
   ("H-Index", "h_index"),
   ("% All Open Access Documents", "pct_open_access")]

/-- `DataFrame.rename(columns=mapping)`: a column not in the mapping keeps
its name. -/
def renameCol (c : String) : String := (columnMapping.lookup c).getD c

/-- The five numeric target columns (clean_data.py line 30). -/
def numericColumns : List String :=
  ["document_count", "total_citations", "cnci", "h_index", "pct_open_access"]

/-- Header strip (line 16) and rename (line 27) applied to a raw frame. -/
def standardize (raw : RawFrame) : Frame :=
  { cols := (raw.cols.map stripStr).map renameCol,
    rows := raw.rows.map (fun r => r.map Cell.str) }

/-- Coerce the cell at column position `j` of one row. -/
def coerceRowAt (j : ℕ) (row : List Cell) : List Cell :=
  row.set j (Cell.num (coerceCell (Cell.asString (row.getD j (Cell.str "")))))

/-- Apply the numeric-coercion loop (lines 31-40) to one row: for each
numeric target column present in the header, coerce that cell.  The source
loops over columns on the outside; since each column operation acts
independently on every row, this per-row fold is the same transformation. -/
def coerceRow (cols : List String) (row : List Cell) : List Cell :=
  numericColumns.foldl
    (fun r name => if name ∈ cols then coerceRowAt (cols.indexOf name) r else r) row

/-- The coercion loop over the whole frame. -/
def coerceFrame (f : Frame) : Frame :=
  { cols := f.cols, rows := f.rows.map (coerceRow f.cols) }

/-- The frame held by clean_data.py just before `dropna`. -/
def coercedOf (raw : RawFrame) : Frame := coerceFrame (standardize raw)

/-- The subset labels of the `dropna` call (line 43) / the required columns
of run_regression.py (line 84). -/
def requiredCols : List String := ["document_count", "total_citations"]

/-- The row predicate of `dropna(subset=["document_count", "total_citations"])`:
both core cells are non-null. -/
def keepRow (cols : List String) (row : List Cell) : Bool :=
  (row.getD (cols.indexOf "document_count") (Cell.str "")).notNa &&
  (row.getD (cols.indexOf "total_citations") (Cell.str "")).notNa

/-- The Cleaner's fatal outcomes: `DataFrame.dropna` raises a `KeyError`
naming the absent subset labels. -/
inductive CleanErr where
  | keyError : List String → CleanErr
deriving DecidableEq

/-- The Cleaner's externally visible file writes. -/
inductive CleanEff where
  | writeCsv : Frame → CleanEff
deriving DecidableEq

/-- The surviving rows after `dropna`. -/
def cleanedRows (raw : RawFrame) : List (List Cell) :=
  (coercedOf raw).rows.filter (keepRow (coercedOf raw).cols)

/-- clean_data.py `main` after the CSV load: standardize, coerce, drop rows
missing a core variable, then write the cleaned CSV.  When a `dropna`
subset label is absent the `KeyError` aborts the run before the write. -/
def cleanerMain (raw : RawFrame) : List CleanEff × Except CleanErr Frame :=
  let coerced := coercedOf raw
  let missing := requiredCols.filter (fun c => !(decide (c ∈ coerced.cols)))
  if missing.isEmpty then
    let cleaned : Frame := { cols := coerced.cols, rows := cleanedRows raw }
    ([CleanEff.writeCsv cleaned], Except.ok cleaned)
  else
    ([], Except.error (CleanErr.keyError missing))

/-! ### The Fitter's data model (run_regression.py) -/

/-- One row of the cleaned dataset as the Fitter uses it: the two core
numeric columns (guaranteed non-null by the Cleaner) plus the optional
name used for labelling. -/
structure Rec where
  researcher_name : String
  document_count : ℚ
  total_citations : ℚ
deriving DecidableEq, Inhabited

/-- The frame loaded by `pd.read_csv(CLEAN_INPUT_PATH)`: its header and its
records. -/
structure FitFrame where
  cols : List String
  recs : List Rec
deriving DecidableEq

/-- `a` sorts no later than `b` in descending `total_citations` order.
With this (total, transitive) relation, insertion sort is the stable
descending sort underlying `DataFrame.nlargest(…, keep="first")`. -/
def citGE (a b : Rec) : Prop := b.total_citations ≤ a.total_citations

instance : DecidableRel citGE :=
  fun a b => inferInstanceAs (Decidable (b.total_citations ≤ a.total_citations))

instance : IsTotal Rec citGE := ⟨fun a b => le_total b.total_citations a.total_citations⟩

instance : IsTrans Rec citGE := ⟨fun _ _ _ h1 h2 => le_trans h2 h1⟩

/-- `_highlight_top3` (run_regression.py lines 40-44): nothing on an empty
frame, else `df.nlargest(min(3, len(df)), "total_citations")` — the
`min(3, len(df))` first rows of the stable descending sort. -/
def highlightTop3 (df : List Rec) : List Rec :=
  if df.isEmpty then [] else (List.insertionSort citGE df).take (min 3 df.length)

/-! ### Ordinary least squares and R² (run_regression.py lines 124-130) -/

/-- Mean of the first `n` values of `f`. -/
def meanN (n : ℕ) (f : ℕ → ℚ) : ℚ := (∑ i ∈ Finset.range n, f i) / n

/-- Centered sum of squares of the predictor. -/
def sxx (n : ℕ) (x : ℕ → ℚ) : ℚ := ∑ i ∈ Finset.range n, (x i - meanN n x) ^ 2

/-- Centered cross sum. -/
def sxy (n : ℕ) (x y : ℕ → ℚ) : ℚ :=
  ∑ i ∈ Finset.range n, (x i - meanN n x) * (y i - meanN n y)

/-- Centered sum of squares of the response. -/
def syy (n : ℕ) (y : ℕ → ℚ) : ℚ := ∑ i ∈ Finset.range n, (y i - meanN n y) ^ 2

/-- The slope computed by `LinearRegression().fit` for a single predictor
with intercept. -/
def olsSlope (n : ℕ) (x y : ℕ → ℚ) : ℚ := sxy n x y / sxx n x

/-- The intercept computed by `LinearRegression().fit`. -/
def olsIntercept (n : ℕ) (x y : ℕ → ℚ) : ℚ := meanN n y - olsSlope n x y * meanN n x

/-- Sum of squared residuals of the line `a + b·x`. -/
def sse (n : ℕ) (x y : ℕ → ℚ) (a b : ℚ) : ℚ :=
  ∑ i ∈ Finset.range n, (y i - (a + b * x i)) ^ 2

/-- `sklearn.metrics.r2_score` including its special cases: a zero residual
sum scores 1 whatever the denominator; a nonzero residual sum with zero
total sum scores 0; otherwise `1 - num/den`.  No division is performed in
the degenerate branches. -/
def r2score (n : ℕ) (yt yp : ℕ → ℚ) : ℚ :=
  if (∑ i ∈ Finset.range n, (yt i - yp i) ^ 2) = 0 then 1
  else if (∑ i ∈ Finset.range n, (yt i - meanN n yt) ^ 2) = 0 then 0
  else 1 - (∑ i ∈ Finset.range n, (yt i - yp i) ^ 2) /
    (∑ i ∈ Finset.range n, (yt i - meanN n yt) ^ 2)

/-- The `document_count` column as a function of the row index. -/
def colDoc (df : List Rec) : ℕ → ℚ := fun i => (df.getD i default).document_count

/-- The `total_citations` column as a function of the row index. -/
def colCit (df : List Rec) : ℕ → ℚ := fun i => (df.getD i default).total_citations

/-- `linear_model.coef_[0]` on the loaded records. -/
def fitSlope (df : List Rec) : ℚ := olsSlope df.length (colDoc df) (colCit df)

/-- `linear_model.intercept_` on the loaded records. -/
def fitIntercept (df : List Rec) : ℚ := olsIntercept df.length (colDoc df) (colCit df)

/-- Sum of squared residuals of an arbitrary candidate line on the records. -/
def sseOf (df : List Rec) (a b : ℚ) : ℚ := sse df.length (colDoc df) (colCit df) a b

/-- `r2_score(total_citations_vector, fitted_values)` (line 130). -/
def fitR2 (df : List Rec) : ℚ :=
  r2score df.length (colCit df) (fun i => fitIntercept df + fitSlope df * colDoc df i)

/-! ### Prediction curve (run_regression.py lines 143-147) -/

/-- `np.linspace(lo, hi, num)`: `num` evenly spaced samples from `lo` to
`hi` inclusive. -/
def linspace (lo hi : ℚ) (num : ℕ) : List ℚ :=
  (List.range num).map (fun i : ℕ => lo + (hi - lo) * (i : ℚ) / ((num : ℚ) - 1))

/-- `document_count_matrix.min()`: reduction by `min` over the rows (the
sentinel for the empty case is never used: the source crashes earlier on an
empty frame). -/
def colMinDoc (df : List Rec) : ℚ :=
  match df.map Rec.document_count with
  | [] => 0
  | v :: vs => vs.foldl min v

/-- `document_count_matrix.max()`. -/
def colMaxDoc (df : List Rec) : ℚ :=
  match df.map Rec.document_count with
  | [] => 0
  | v :: vs => vs.foldl max v

/-- `x_grid` zipped with `y_grid = linear_model.predict(x_grid)`: the data
of the plotted regression line. -/
def predictionCurve (df : List Rec) : List (ℚ × ℚ) :=
  (linspace (colMinDoc df) (colMaxDoc df) 100).map
    (fun t => (t, fitIntercept df + fitSlope df * t))

/-! ### The Fitter run (run_regression.py main) -/

/-- The Fitter's fatal outcomes as the source produces them:
`ValueError(f"Missing columns in input: …")` from the up-front check
(lines 84-87), and the `ValueError` that `np.nanmin` raises on the empty
`document_count` series inside `_set_integer_xticks` (line 27, reached
from line 102).  The source defines no dedicated empty-dataset error. -/
inductive FitErr where
  | missingColumns : List String → FitErr
  | emptyReduction : FitErr
deriving DecidableEq

/-- The Fitter's externally visible file writes, carrying exactly the data
handed to the collaborators: the point set, the top-3 subset, the
prediction curve, and the report numbers (intercept, slope, R²). -/
inductive FitEff where
  | saveScatter : List (ℚ × ℚ) → List Rec → FitEff
  | saveRegression : List (ℚ × ℚ) → List (ℚ × ℚ) → List Rec → FitEff
  | writeReport : ℚ → ℚ → ℚ → FitEff
deriving DecidableEq

/-- The raw point set of both plots. -/
def points (df : List Rec) : List (ℚ × ℚ) :=
  df.map (fun r => (r.document_count, r.total_citations))

/-- run_regression.py `main` after the CSV load: the up-front column check,
then the scatter plot (whose x-tick helper crashes on an empty frame), the
fit, the regression plot, and the report.  Effects are listed in the order
the source writes the files. -/
def fitterMain (f : FitFrame) : List FitEff × Except FitErr Unit :=
  let missing := requiredCols.filter (fun c => !(decide (c ∈ f.cols)))
  if !missing.isEmpty then
    ([], Except.error (FitErr.missingColumns missing))
  else if f.recs.isEmpty then
    ([], Except.error FitErr.emptyReduction)
  else
    ([FitEff.saveScatter (points f.recs) (highlightTop3 f.recs),
      FitEff.saveRegression (points f.recs) (predictionCurve f.recs) (highlightTop3 f.recs),
      FitEff.writeReport (fitIntercept f.recs) (fitSlope f.recs) (fitR2 f.recs)],
     Except.ok ())

/-! ### Concrete datasets used by the claims -/

/-- The tie-break example of the spec: `total_citations` = [10, 50, 50, 5, 100]. -/
def c1df : List Rec :=
  [⟨"a", 1, 10⟩, ⟨"b", 2, 50⟩, ⟨"c", 3, 50⟩, ⟨"d", 4, 5⟩, ⟨"e", 5, 100⟩]

/-- The synthetic regression example of the spec:
`document_count` = [1,2,3,4,5], `total_citations` = [2,4,6,8,10]. -/
def c2df : List Rec :=
  [⟨"p", 1, 2⟩, ⟨"q", 2, 4⟩, ⟨"r", 3, 6⟩, ⟨"s", 4, 8⟩, ⟨"t", 5, 10⟩]

/-! ### Helper lemmas -/

theorem filterKey_orderedInsert_eq (c : ℚ) (a : Rec) (l : List Rec)
    (ha : a.total_citations = c) :
    (List.orderedInsert citGE a l).filter (fun r => r.total_citations == c) =
      a :: l.filter (fun r => r.total_citations == c) := by
  induction l with
  | nil => simp [ha]
  | cons b t ih =>
      rw [List.orderedInsert]
      by_cases h : citGE a b
      · rw [if_pos h]
        simp [List.filter_cons, ha]
      · rw [if_neg h]
        have hb : (b.total_citations == c) = false := by
          rw [citGE, not_le] at h
          rw [ha] at h
          simp [beq_iff_eq]
          exact ne_of_gt h
        simp only [List.filter_cons, hb, ih]
        simp

theorem filterKey_orderedInsert_ne (c : ℚ) (a : Rec) (l : List Rec)
    (ha : a.total_citations ≠ c) :
    (List.orderedInsert citGE a l).filter (fun r => r.total_citations == c) =
      l.filter (fun r => r.total_citations == c) := by
  induction l with
  | nil => simp [ha]
  | cons b t ih =>
      rw [List.orderedInsert]
      by_cases h : citGE a b
      · rw [if_pos h]
        simp [List.filter_cons, ha]
      · rw [if_neg h]
        simp only [List.filter_cons, ih]

/-- Stability of the descending sort: within any tied `total_citations`
value, the sorted list keeps exactly the original rows in the original
order. -/
theorem filterKey_insertionSort (c : ℚ) (l : List Rec) :
    (List.insertionSort citGE l).filter (fun r => r.total_citations == c) =
      l.filter (fun r => r.total_citations == c) := by
  induction l with
  | nil => rfl
  | cons a t ih =>
      rw [List.insertionSort]
      by_cases ha : a.total_citations = c
      · rw [filterKey_orderedInsert_eq c a _ ha, ih]
        simp [List.filter_cons, ha]
      · rw [filterKey_orderedInsert_ne c a _ ha, ih]
        simp [List.filter_cons, ha]

theorem highlightTop3_eq (df : List Rec) (h : df ≠ []) :
    highlightTop3 df = (List.insertionSort citGE df).take (min 3 df.length) := by
  rw [highlightTop3, if_neg]
  simp [h]

theorem sum_sub_mean (n : ℕ) (hn : n ≠ 0) (f : ℕ → ℚ) :
    ∑ i ∈ Finset.range n, (f i - meanN n f) = 0 := by
  have hcast : (n : ℚ) ≠ 0 := Nat.cast_ne_zero.mpr hn
  rw [Finset.sum_sub_distrib, Finset.sum_const, Finset.card_range, nsmul_eq_mul, meanN]
  field_simp

/-- Completing the square: the residual sum of any candidate line splits
into the centered quadratic in the slope plus the centering term. -/
theorem sse_decomp (n : ℕ) (hn : n ≠ 0) (x y : ℕ → ℚ) (a b : ℚ) :
    sse n x y a b =
      syy n y - 2 * b * sxy n x y + b ^ 2 * sxx n x +
        n * (meanN n y - a - b * meanN n x) ^ 2 := by
  have key : ∀ i ∈ Finset.range n, (y i - (a + b * x i)) ^ 2 =
      (y i - meanN n y) ^ 2 + b ^ 2 * ((x i - meanN n x) ^ 2) +
      (meanN n y - a - b * meanN n x) ^ 2 +
      (-(2 * b)) * ((x i - meanN n x) * (y i - meanN n y)) +
      (2 * (meanN n y - a - b * meanN n x)) * (y i - meanN n y) +
      (-(2 * b * (meanN n y - a - b * meanN n x))) * (x i - meanN n x) := by
    intro i _
    ring
  rw [sse, syy, sxy, sxx, Finset.sum_congr rfl key]
  simp only [Finset.sum_add_distrib, ← Finset.mul_sum, Finset.sum_const,
    Finset.card_range, nsmul_eq_mul]
  rw [sum_sub_mean n hn x, sum_sub_mean n hn y]
  ring

theorem sxx_nonneg (n : ℕ) (x : ℕ → ℚ) : 0 ≤ sxx n x :=
  Finset.sum_nonneg (fun _ _ => sq_nonneg _)

theorem sxx_pos_of_ne (n : ℕ) (x : ℕ → ℚ) (i j : ℕ)
    (hi : i < n) (hj : j < n) (hij : x i ≠ x j) : 0 < sxx n x := by
  rcases lt_or_eq_of_le (sxx_nonneg n x) with h | h
  · exact h
  · exfalso
    have hall := (Finset.sum_eq_zero_iff_of_nonneg
      (fun k _ => sq_nonneg (x k - meanN n x))).mp h.symm
    have hxi : x i = meanN n x := by
      have := hall i (Finset.mem_range.mpr hi)
      rwa [sq_eq_zero_iff, sub_eq_zero] at this
    have hxj : x j = meanN n x := by
      have := hall j (Finset.mem_range.mpr hj)
      rwa [sq_eq_zero_iff, sub_eq_zero] at this
    exact hij (hxi.trans hxj.symm)

theorem ols_diff (n : ℕ) (x y : ℕ → ℚ) (hx : sxx n x ≠ 0) (a b : ℚ) :
    (syy n y - 2 * b * sxy n x y + b ^ 2 * sxx n x +
        n * (meanN n y - a - b * meanN n x) ^ 2) -
      (syy n y - 2 * olsSlope n x y * sxy n x y + olsSlope n x y ^ 2 * sxx n x +
        n * (0 : ℚ) ^ 2) =
      sxx n x * (b - olsSlope n x y) ^ 2 +
        n * (meanN n y - a - b * meanN n x) ^ 2 := by
  have hslope : olsSlope n x y * sxx n x = sxy n x y := by
    rw [olsSlope]
    field_simp
  linear_combination (2 * b - 2 * olsSlope n x y) * hslope

/-- The closed-form coefficients minimise the residual sum of squares. -/
theorem ols_min (n : ℕ) (hn : n ≠ 0) (x y : ℕ → ℚ) (hx : sxx n x ≠ 0) (a b : ℚ) :
    sse n x y (olsIntercept n x y) (olsSlope n x y) ≤ sse n x y a b := by
  have hfit : meanN n y - olsIntercept n x y - olsSlope n x y * meanN n x = 0 := by
    rw [olsIntercept]
    ring
  rw [sse_decomp n hn x y a b,
    sse_decomp n hn x y (olsIntercept n x y) (olsSlope n x y), hfit]
  have hd := ols_diff n x y hx a b
  have h1 : 0 ≤ sxx n x * (b - olsSlope n x y) ^ 2 :=
    mul_nonneg (sxx_nonneg n x) (sq_nonneg _)
  have h2 : 0 ≤ (n : ℚ) * (meanN n y - a - b * meanN n x) ^ 2 :=
    mul_nonneg (by positivity) (sq_nonneg _)
  nlinarith [hd, h1, h2]

/-- The minimiser is unique once the predictor is not constant. -/
theorem ols_unique (n : ℕ) (hn : n ≠ 0) (x y : ℕ → ℚ) (hx : sxx n x ≠ 0) (a b : ℚ)
    (heq : sse n x y a b = sse n x y (olsIntercept n x y) (olsSlope n x y)) :
    a = olsIntercept n x y ∧ b = olsSlope n x y := by
  have hfit : meanN n y - olsIntercept n x y - olsSlope n x y * meanN n x = 0 := by
    rw [olsIntercept]
    ring
  rw [sse_decomp n hn x y a b,
    sse_decomp n hn x y (olsIntercept n x y) (olsSlope n x y), hfit] at heq
  have hd := ols_diff n x y hx a b
  have hzero : sxx n x * (b - olsSlope n x y) ^ 2 +
      (n : ℚ) * (meanN n y - a - b * meanN n x) ^ 2 = 0 := by
    linarith [hd]
  have h1 : 0 ≤ sxx n x * (b - olsSlope n x y) ^ 2 :=
    mul_nonneg (sxx_nonneg n x) (sq_nonneg _)
  have h2 : 0 ≤ (n : ℚ) * (meanN n y - a - b * meanN n x) ^ 2 :=
    mul_nonneg (by positivity) (sq_nonneg _)
  have hb : sxx n x * (b - olsSlope n x y) ^ 2 = 0 := by linarith
  have hc : (n : ℚ) * (meanN n y - a - b * meanN n x) ^ 2 = 0 := by linarith
  have hxpos : 0 < sxx n x := lt_of_le_of_ne (sxx_nonneg n x) (Ne.symm hx)
  have hb' : b = olsSlope n x y := by
    have h3 := (mul_eq_zero.mp hb).resolve_left (ne_of_gt hxpos)
    rw [sq_eq_zero_iff, sub_eq_zero] at h3
    exact h3
  have hncast : (n : ℚ) ≠ 0 := Nat.cast_ne_zero.mpr hn
  have hc' : meanN n y - a - b * meanN n x = 0 := by
    have h3 := (mul_eq_zero.mp hc).resolve_left hncast
    rwa [sq_eq_zero_iff] at h3
  refine ⟨?_, hb'⟩
  rw [olsIntercept, ← hb']
  linarith [hc']

theorem r2score_eq_one (n : ℕ) (yt yp : ℕ → ℚ)
    (h : (∑ i ∈ Finset.range n, (yt i - yp i) ^ 2) = 0) : r2score n yt yp = 1 := by
  rw [r2score, if_pos h]

theorem foldl_min_le_init (l : List ℚ) (a : ℚ) : l.foldl min a ≤ a := by
  induction l generalizing a with
  | nil => exact le_refl a
  | cons b t ih => exact le_trans (ih (min a b)) (min_le_left a b)

theorem foldl_min_le_mem (l : List ℚ) (a b : ℚ) (hb : b ∈ l) : l.foldl min a ≤ b := by
  induction l generalizing a with
  | nil => cases hb
  | cons c t ih =>
      rcases List.mem_cons.mp hb with rfl | hb'
      · exact le_trans (foldl_min_le_init t (min a b)) (min_le_right a b)
      · exact ih (min a c) hb'

theorem foldl_min_mem (l : List ℚ) (a : ℚ) : l.foldl min a ∈ a :: l := by
  induction l generalizing a with
  | nil => exact List.mem_singleton.mpr rfl
  | cons b t ih =>
      rw [List.foldl_cons]
      rcases List.mem_cons.mp (ih (min a b)) with heq | hmem
      · rcases min_choice a b with h | h
        · exact List.mem_cons.mpr (Or.inl (heq.trans h))
        · rw [heq, h]
          exact List.mem_cons.mpr (Or.inr (List.mem_cons.mpr (Or.inl rfl)))
      · exact List.mem_cons.mpr (Or.inr (List.mem_cons.mpr (Or.inr hmem)))

theorem foldl_max_init_le (l : List ℚ) (a : ℚ) : a ≤ l.foldl max a := by
  induction l generalizing a with
  | nil => exact le_refl a
  | cons b t ih => exact le_trans (le_max_left a b) (ih (max a b))

theorem foldl_max_mem_le (l : List ℚ) (a b : ℚ) (hb : b ∈ l) : b ≤ l.foldl max a := by
  induction l generalizing a with
  | nil => cases hb
  | cons c t ih =>
      rcases List.mem_cons.mp hb with rfl | hb'
      · exact le_trans (le_max_right a b) (foldl_max_init_le t (max a b))
      · exact ih (max a c) hb'

theorem foldl_max_mem (l : List ℚ) (a : ℚ) : l.foldl max a ∈ a :: l := by
  induction l generalizing a with
  | nil => exact List.mem_singleton.mpr rfl
  | cons b t ih =>
      rw [List.foldl_cons]
      rcases List.mem_cons.mp (ih (max a b)) with heq | hmem
      · rcases max_choice a b with h | h
        · exact List.mem_cons.mpr (Or.inl (heq.trans h))
        · rw [heq, h]
          exact List.mem_cons.mpr (Or.inr (List.mem_cons.mpr (Or.inl rfl)))
      · exact List.mem_cons.mpr (Or.inr (List.mem_cons.mpr (Or.inr hmem)))

/-- `.min()` of a non-empty `document_count` column is an observed value
and a lower bound of the observed values. -/
theorem colMinDoc_spec (df : List Rec) (h : df ≠ []) :
    colMinDoc df ∈ df.map Rec.document_count ∧
      ∀ v ∈ df.map Rec.document_count, colMinDoc df ≤ v := by
  cases hm : df.map Rec.document_count with
  | nil => exact absurd (List.map_eq_nil_iff.mp hm) h
  | cons v vs =>
      have hdef : colMinDoc df = vs.foldl min v := by
        rw [colMinDoc, hm]
      constructor
      · rw [hdef]
        exact foldl_min_mem vs v
      · intro w hw
        rcases List.mem_cons.mp hw with rfl | hw'
        · rw [hdef]
          exact foldl_min_le_init vs w
        · rw [hdef]
          exact foldl_min_le_mem vs v w hw'

/-- `.max()` of a non-empty `document_count` column is an observed value
and an upper bound of the observed values. -/
theorem colMaxDoc_spec (df : List Rec) (h : df ≠ []) :
    colMaxDoc df ∈ df.map Rec.document_count ∧
      ∀ v ∈ df.map Rec.document_count, v ≤ colMaxDoc df := by
  cases hm : df.map Rec.document_count with
  | nil => exact absurd (List.map_eq_nil_iff.mp hm) h
  | cons v vs =>
      have hdef : colMaxDoc df = vs.foldl max v := by
        rw [colMaxDoc, hm]
      constructor
      · rw [hdef]
        exact foldl_max_mem vs v
      · intro w hw
        rcases List.mem_cons.mp hw with rfl | hw'
        · rw [hdef]
          exact foldl_max_init_le vs w
        · rw [hdef]
          exact foldl_max_mem_le vs v w hw'

/-- Closed form of the `i`-th point of the prediction curve. -/
theorem predictionCurve_getD (df : List Rec) (i : ℕ) (hi : i < 100) :
    (predictionCurve df).getD i (0, 0) =
      (colMinDoc df + (colMaxDoc df - colMinDoc df) * i / 99,
       fitIntercept df + fitSlope df *
         (colMinDoc df + (colMaxDoc df - colMinDoc df) * i / 99)) := by
  have hlen : (predictionCurve df).length = 100 := by
    rw [predictionCurve, List.length_map, linspace, List.length_map, List.length_range]
  rw [List.getD_eq_getElem?_getD, List.getElem?_eq_getElem (by rw [hlen]; exact hi)]
  simp only [predictionCurve, linspace, List.getElem_map, List.getElem_range,
    Prod.mk.injEq]
  norm_num

/-! ### Claim C1 -/

/-- Claim C1: for every non-empty record set, the top-3 highlight selection
has `min 3 n` records, is ordered by descending `total_citations`, consists
of the records with the largest `total_citations` values (every unselected
record is bounded by every selected one), and breaks ties by preserving
original row order (for each citation value, the selected records with that
value are an order-preserving sublist of the original records with that
value); in particular for `total_citations` = [10, 50, 50, 5, 100] it is
the 100-record followed by the two 50-records in original order. -/
theorem c1_top3_selection :
    (∀ df : List Rec, df ≠ [] →
      (highlightTop3 df).length = min 3 df.length ∧
      List.Sorted citGE (highlightTop3 df) ∧
      (∀ r ∈ df, r ∉ highlightTop3 df → ∀ s ∈ highlightTop3 df,
        r.total_citations ≤ s.total_citations) ∧
      (∀ c : ℚ, ((highlightTop3 df).filter (fun r => r.total_citations == c)).Sublist
        (df.filter (fun r => r.total_citations == c)))) ∧
    highlightTop3 c1df = [⟨"e", 5, 100⟩, ⟨"b", 2, 50⟩, ⟨"c", 3, 50⟩] := by
  constructor
  · intro df h
    have hL := highlightTop3_eq df h
    have hperm := List.perm_insertionSort citGE df
    have hsorted := List.sorted_insertionSort citGE df
    refine ⟨?_, ?_, ?_, ?_⟩
    · rw [hL]
      simp [List.length_take, hperm.length_eq]
    · rw [hL]
      exact hsorted.sublist (List.take_sublist _ _)
    · intro r hr hnot s hs
      rw [hL] at hnot hs
      have hrL : r ∈ List.insertionSort citGE df := hperm.mem_iff.mpr hr
      have hrdrop : r ∈ (List.insertionSort citGE df).drop (min 3 df.length) := by
        have := (List.take_append_drop (min 3 df.length)
          (List.insertionSort citGE df)) ▸ hrL
        rcases List.mem_append.mp this with h1 | h1
        · exact absurd h1 hnot
        · exact h1
      have hpw : List.Pairwise citGE
          ((List.insertionSort citGE df).take (min 3 df.length) ++
           (List.insertionSort citGE df).drop (min 3 df.length)) := by
        rw [List.take_append_drop]
        exact hsorted
      exact (List.pairwise_append.mp hpw).2.2 s hs r hrdrop
    · intro c
      rw [hL, ← filterKey_insertionSort c df]
      exact (List.take_sublist _ _).filter _
  · decide

theorem c1_top3_selection_witness :
    c1df ≠ [] ∧ (highlightTop3 c1df).length = min 3 c1df.length :=
  ⟨by decide, (c1_top3_selection.1 c1df (by decide)).1⟩

/-! ### Claim C3 -/

/-- Claim C3: the per-cell coercion equals `%`-stripping followed by
numeric parsing with `none` (null) on failure; it is applied independently
per cell, so changing one cell changes exactly that output cell and no
other; consequently "12.5%" and "12.5" coerce to the same number, and an
unparsable cell becomes null rather than raising. -/
theorem c3_numeric_coercion :
    (∀ s : String, coerceCell s = parseNum (stripPercent s)) ∧
    (∀ (col : List String) (i : ℕ) (s : String),
      coerceColumn (col.set i s) = (coerceColumn col).set i (coerceCell s)) ∧
    (∀ s : String, coerceCell (s ++ "%") = coerceCell s) ∧
    coerceCell "12.5%" = some (25 / 2) ∧
    coerceCell "12.5" = some (25 / 2) ∧
    coerceCell "abc" = none := by
  refine ⟨fun s => rfl, ?_, ?_, ?_, ?_, rfl⟩
  · intro col i s
    simp [coerceColumn, List.map_set]
  · intro s
    have h : stripPercent (s ++ "%") = stripPercent s := by
      rw [stripPercent, stripPercent, String.data_append]
      rw [List.filter_append]
      simp
    rw [coerceCell, coerceCell, h]
  · show some (((digitsVal ['1', '2'] : ℕ) : ℚ) +
      ((digitsVal ['5'] : ℕ) : ℚ) / (10 : ℚ) ^ (['5'].length)) = some (25 / 2)
    rw [show digitsVal ['1', '2'] = 12 from rfl, show digitsVal ['5'] = 5 from rfl]
    norm_num
  · show some (((digitsVal ['1', '2'] : ℕ) : ℚ) +
      ((digitsVal ['5'] : ℕ) : ℚ) / (10 : ℚ) ^ (['5'].length)) = some (25 / 2)
    rw [show digitsVal ['1', '2'] = 12 from rfl, show digitsVal ['5'] = 5 from rfl]
    norm_num

/-! ### Claim C4 -/

/-- Claim C4: a row survives the Cleaner exactly when both its
`document_count` and `total_citations` cells are non-null after coercion
(`keepRow` inspects only those two cells, so rows missing optional fields
are kept); survivors keep their relative input order (the output is a
sublist of the coerced rows, which are the input rows transformed in
place); and on a frame with the required columns the run writes exactly
this filtered frame. -/
theorem c4_row_filtering :
    ∀ raw : RawFrame,
      (∀ row : List Cell, row ∈ cleanedRows raw ↔
        row ∈ (coercedOf raw).rows ∧ keepRow (coercedOf raw).cols row = true) ∧
      (cleanedRows raw).Sublist (coercedOf raw).rows ∧
      (coercedOf raw).rows = (standardize raw).rows.map (coerceRow (standardize raw).cols) ∧
      (standardize raw).rows = raw.rows.map (fun r => r.map Cell.str) ∧
      ((requiredCols.filter (fun c => !(decide (c ∈ (coercedOf raw).cols)))).isEmpty = true →
        cleanerMain raw =
          ([CleanEff.writeCsv { cols := (coercedOf raw).cols, rows := cleanedRows raw }],
           Except.ok { cols := (coercedOf raw).cols, rows := cleanedRows raw })) := by
  intro raw
  refine ⟨?_, ?_, rfl, rfl, ?_⟩
  · intro row
    exact List.mem_filter
  · exact List.filter_sublist _
  · intro h
    rw [cleanerMain]
    simp only [h]
    simp

/-- A small raw frame with both required source headers present. -/
def c4raw : RawFrame :=
  { cols := ["Web of Science Documents", "Times Cited"], rows := [["3", "x"]] }

theorem c4_row_filtering_witness :
    (requiredCols.filter (fun c => !(decide (c ∈ (coercedOf c4raw).cols)))).isEmpty = true ∧
    cleanerMain c4raw =
      ([CleanEff.writeCsv { cols := (coercedOf c4raw).cols, rows := cleanedRows c4raw }],
       Except.ok { cols := (coercedOf c4raw).cols, rows := cleanedRows c4raw }) :=
  ⟨rfl, (c4_row_filtering c4raw).2.2.2.2 rfl⟩

/-! ### Claim C2 -/

/-- Claim C2: on every non-empty record set whose `document_count` values
are not all identical, the fitted intercept and slope are the unique
minimiser of the sum of squared residuals of `total_citations` against
`document_count`; in particular on `document_count` = [1,2,3,4,5],
`total_citations` = [2,4,6,8,10] the fit is slope 2, intercept 0, R² 1
(exactly, hence within any tolerance). -/
theorem c2_ols_fit :
    (∀ df : List Rec, df ≠ [] →
      (∃ i, i < df.length ∧ ∃ j, j < df.length ∧ colDoc df i ≠ colDoc df j) →
      ∀ a b : ℚ,
        sseOf df (fitIntercept df) (fitSlope df) ≤ sseOf df a b ∧
        (sseOf df a b = sseOf df (fitIntercept df) (fitSlope df) →
          a = fitIntercept df ∧ b = fitSlope df)) ∧
    (fitSlope c2df = 2 ∧ fitIntercept c2df = 0 ∧ fitR2 c2df = 1) := by
  have e0 : colDoc c2df 0 = 1 := rfl
  have e1 : colDoc c2df 1 = 2 := rfl
  have e2 : colDoc c2df 2 = 3 := rfl
  have e3 : colDoc c2df 3 = 4 := rfl
  have e4 : colDoc c2df 4 = 5 := rfl
  have f0 : colCit c2df 0 = 2 := rfl
  have f1 : colCit c2df 1 = 4 := rfl
  have f2 : colCit c2df 2 = 6 := rfl
  have f3 : colCit c2df 3 = 8 := rfl
  have f4 : colCit c2df 4 = 10 := rfl
  have hl : c2df.length = 5 := rfl
  have hs : fitSlope c2df = 2 := by
    simp only [fitSlope, olsSlope, sxy, sxx, meanN, hl, Finset.sum_range_succ,
      Finset.sum_range_zero, e0, e1, e2, e3, e4, f0, f1, f2, f3, f4]
    norm_num
  have hi : fitIntercept c2df = 0 := by
    have hs' : olsSlope 5 (colDoc c2df) (colCit c2df) = 2 := hs
    simp only [fitIntercept, olsIntercept, hs', meanN, hl, Finset.sum_range_succ,
      Finset.sum_range_zero, e0, e1, e2, e3, e4, f0, f1, f2, f3, f4]
    norm_num
  have hr : fitR2 c2df = 1 := by
    have hnum : ∑ i ∈ Finset.range c2df.length,
        (colCit c2df i - (fitIntercept c2df + fitSlope c2df * colDoc c2df i)) ^ 2 = 0 := by
      simp only [hs, hi, hl, Finset.sum_range_succ, Finset.sum_range_zero,
        e0, e1, e2, e3, e4, f0, f1, f2, f3, f4]
      norm_num
    rw [fitR2]
    exact r2score_eq_one _ _ _ hnum
  refine ⟨?_, hs, hi, hr⟩
  intro df hne hvar a b
  have hn : df.length ≠ 0 := fun h => hne (List.length_eq_zero.mp h)
  obtain ⟨i, hilt, j, hjlt, hij⟩ := hvar
  have hx : sxx df.length (colDoc df) ≠ 0 :=
    ne_of_gt (sxx_pos_of_ne df.length (colDoc df) i j hilt hjlt hij)
  exact ⟨ols_min df.length hn (colDoc df) (colCit df) hx a b,
    fun h => ols_unique df.length hn (colDoc df) (colCit df) hx a b h⟩

theorem c2_ols_fit_witness :
    c2df ≠ [] ∧
    (∃ i, i < c2df.length ∧ ∃ j, j < c2df.length ∧ colDoc c2df i ≠ colDoc c2df j) ∧
    sseOf c2df (fitIntercept c2df) (fitSlope c2df) ≤ sseOf c2df 0 3 :=
  ⟨by decide, ⟨0, by decide, 1, by decide, by decide⟩,
   (c2_ols_fit.1 c2df (by decide) ⟨0, by decide, 1, by decide, by decide⟩ 0 3).1⟩

/-! ### Claim C6 -/

/-- Claim C6: when every `total_citations` value equals the same constant,
the fit has slope 0 and intercept equal to that constant, the residuals
are exactly 0, and `r2_score`'s documented zero-numerator special case
reports R² as exactly 1 without evaluating the division (so no division by
zero and no NaN reaches the report). -/
theorem c6_degenerate_r2 :
    ∀ (df : List Rec) (c : ℚ), df ≠ [] → (∀ r ∈ df, r.total_citations = c) →
      fitR2 df = 1 := by
  intro df c hne hconst
  have hn : df.length ≠ 0 := fun h => hne (List.length_eq_zero.mp h)
  have hncast : (df.length : ℚ) ≠ 0 := Nat.cast_ne_zero.mpr hn
  have hcol : ∀ i ∈ Finset.range df.length, colCit df i = c := by
    intro i hi
    rw [Finset.mem_range] at hi
    rw [colCit]
    have hget : df.getD i default = df[i] := by
      rw [List.getD_eq_getElem?_getD, List.getElem?_eq_getElem hi]
      rfl
    rw [hget]
    exact hconst _ (List.getElem_mem hi)
  have hmean : meanN df.length (colCit df) = c := by
    rw [meanN, Finset.sum_congr rfl hcol, Finset.sum_const, Finset.card_range,
      nsmul_eq_mul]
    field_simp
  have hsxy : sxy df.length (colDoc df) (colCit df) = 0 := by
    rw [sxy]
    apply Finset.sum_eq_zero
    intro i hi
    rw [hcol i hi, hmean]
    ring
  have hslope : fitSlope df = 0 := by
    rw [fitSlope, olsSlope, hsxy, zero_div]
  have hslope' : olsSlope df.length (colDoc df) (colCit df) = 0 := hslope
  have hicept : fitIntercept df = c := by
    rw [fitIntercept, olsIntercept, hslope', hmean]
    ring
  have hnum : ∑ i ∈ Finset.range df.length,
      (colCit df i - (fitIntercept df + fitSlope df * colDoc df i)) ^ 2 = 0 := by
    apply Finset.sum_eq_zero
    intro i hi
    rw [hcol i hi, hicept, hslope]
    ring
  rw [fitR2]
  exact r2score_eq_one _ _ _ hnum

/-- A dataset whose `total_citations` are all the same value 7. -/
def c6df : List Rec := [⟨"a", 1, 7⟩, ⟨"b", 2, 7⟩, ⟨"c", 4, 7⟩]

theorem c6_degenerate_r2_witness :
    c6df ≠ [] ∧ (∀ r ∈ c6df, r.total_citations = 7) ∧ fitR2 c6df = 1 :=
  ⟨by decide, by decide, c6_degenerate_r2 c6df 7 (by decide) (by decide)⟩

/-! ### Claim C5 -/

/-- An empty cleaned dataset with the canonical header. -/
def c5frame : FitFrame :=
  { cols := ["researcher_name", "document_count", "total_citations"], recs := [] }

/-- Claim C5, counterexample: on a loaded dataset with zero records the
Fitter's outcome is the unhandled `ValueError` raised by `np.nanmin` on
the empty `document_count` series (modelled by `FitErr.emptyReduction`) —
the source's error type has no dedicated `EmptyDataset` member at all, so
the claimed dedicated error does not occur. -/
theorem c5_empty_counterexample :
    fitterMain c5frame = ([], Except.error FitErr.emptyReduction) := rfl

/-- Claim C5, amended: if zero records remain after load (and the required
columns are present), the Fitter aborts with the unhandled empty-reduction
`ValueError` from `_set_integer_xticks`, before writing anything — not
with a dedicated `EmptyDataset` error. -/
theorem c5_empty_behavior :
    ∀ f : FitFrame, "document_count" ∈ f.cols → "total_citations" ∈ f.cols →
      f.recs = [] → fitterMain f = ([], Except.error FitErr.emptyReduction) := by
  intro f h1 h2 hrecs
  have hm : requiredCols.filter (fun c => !(decide (c ∈ f.cols))) = [] := by
    simp [requiredCols, h1, h2]
  simp [fitterMain, hm, hrecs]

/-- An empty cleaned dataset that also carries optional columns. -/
def c5frame2 : FitFrame :=
  { cols := ["researcher_name", "document_count", "total_citations", "cnci"], recs := [] }

theorem c5_empty_behavior_witness :
    "document_count" ∈ c5frame2.cols ∧ "total_citations" ∈ c5frame2.cols ∧
    c5frame2.recs = [] ∧ fitterMain c5frame2 = ([], Except.error FitErr.emptyReduction) :=
  ⟨by decide, by decide, rfl, c5_empty_behavior c5frame2 (by decide) (by decide) rfl⟩

/-! ### Claim C7 -/

/-- Claim C7: if either required column is absent from the loaded dataset,
the Fitter stops at the up-front check with the missing-columns error
(the source's `ValueError`, the spec's `SchemaMismatch`), having produced
no effect and performed no fitting: its whole result is the bare error. -/
theorem c7_schema_check :
    ∀ f : FitFrame,
      ("document_count" ∉ f.cols ∨ "total_citations" ∉ f.cols) →
      fitterMain f =
        ([], Except.error (FitErr.missingColumns
          (requiredCols.filter (fun c => !(decide (c ∈ f.cols)))))) := by
  intro f h
  have hne : requiredCols.filter (fun c => !(decide (c ∈ f.cols))) ≠ [] := by
    rcases h with h | h
    · intro hnil
      have hmem : "document_count" ∈ requiredCols.filter (fun c => !(decide (c ∈ f.cols))) := by
        rw [List.mem_filter]
        exact ⟨by simp [requiredCols], by simp [h]⟩
      rw [hnil] at hmem
      exact absurd hmem (List.not_mem_nil _)
    · intro hnil
      have hmem : "total_citations" ∈ requiredCols.filter (fun c => !(decide (c ∈ f.cols))) := by
        rw [List.mem_filter]
        exact ⟨by simp [requiredCols], by simp [h]⟩
      rw [hnil] at hmem
      exact absurd hmem (List.not_mem_nil _)
  have hb : (requiredCols.filter (fun c => !(decide (c ∈ f.cols)))).isEmpty = false := by
    cases hmiss : requiredCols.filter (fun c => !(decide (c ∈ f.cols))) with
    | nil => exact absurd hmiss hne
    | cons a t => rfl
  simp [fitterMain, hb]

/-- A loaded frame missing both required columns. -/
def c7frame : FitFrame := { cols := ["researcher_name"], recs := [] }

theorem c7_schema_check_witness :
    ("document_count" ∉ c7frame.cols ∨ "total_citations" ∉ c7frame.cols) ∧
    fitterMain c7frame =
      ([], Except.error (FitErr.missingColumns
        (requiredCols.filter (fun c => !(decide (c ∈ c7frame.cols)))))) :=
  ⟨Or.inl (by decide), c7_schema_check c7frame (Or.inl (by decide))⟩

/-! ### Claim C9 -/

/-- Claim C9: whenever a stage's run ends in an error, its effect list is
empty — no file write happens before the failure point, so a failed run
leaves every previously written output untouched.  This covers both the
Fitter (missing columns, empty dataset) and the Cleaner (missing `dropna`
subset labels). -/
theorem c9_no_partial_output :
    (∀ (f : FitFrame) (e : FitErr),
      (fitterMain f).2 = Except.error e → (fitterMain f).1 = []) ∧
    (∀ (raw : RawFrame) (e : CleanErr),
      (cleanerMain raw).2 = Except.error e → (cleanerMain raw).1 = []) := by
  constructor
  · intro f e h
    simp only [fitterMain] at h ⊢
    split at h
    next hcond =>
      simp [hcond]
    next hcond =>
      split at h
      next hcond2 =>
        simp [hcond, hcond2]
      next hcond2 =>
        simp at h
  · intro raw e h
    simp only [cleanerMain] at h ⊢
    split at h
    next hcond =>
      simp at h
    next hcond =>
      simp [hcond]

theorem c9_no_partial_output_witness :
    (fitterMain { cols := [], recs := [] }).1 = [] ∧
    (cleanerMain { cols := [], rows := [] }).1 = [] :=
  ⟨c9_no_partial_output.1 { cols := [], recs := [] }
      (FitErr.missingColumns ["document_count", "total_citations"]) rfl,
   c9_no_partial_output.2 { cols := [], rows := [] }
      (CleanErr.keyError ["document_count", "total_citations"]) rfl⟩

/-! ### Claim C10 -/

/-- Claim C10: if after header normalization and renaming the frame lacks
`document_count` or `total_citations`, the Cleaner's `dropna` raises its
`KeyError` at the row-filtering step and the run ends with no write: the
whole result is the bare error, so an existing output file is untouched. -/
theorem c10_cleaner_missing_columns :
    ∀ raw : RawFrame,
      ("document_count" ∉ (coercedOf raw).cols ∨ "total_citations" ∉ (coercedOf raw).cols) →
      cleanerMain raw =
        ([], Except.error (CleanErr.keyError
          (requiredCols.filter (fun c => !(decide (c ∈ (coercedOf raw).cols)))))) := by
  intro raw h
  have hne : requiredCols.filter (fun c => !(decide (c ∈ (coercedOf raw).cols))) ≠ [] := by
    rcases h with h | h
    · intro hnil
      have hmem : "document_count" ∈
          requiredCols.filter (fun c => !(decide (c ∈ (coercedOf raw).cols))) := by
        rw [List.mem_filter]
        exact ⟨by simp [requiredCols], by simp [h]⟩
      rw [hnil] at hmem
      exact absurd hmem (List.not_mem_nil _)
    · intro hnil
      have hmem : "total_citations" ∈
          requiredCols.filter (fun c => !(decide (c ∈ (coercedOf raw).cols))) := by
        rw [List.mem_filter]
        exact ⟨by simp [requiredCols], by simp [h]⟩
      rw [hnil] at hmem
      exact absurd hmem (List.not_mem_nil _)
  have hb : (requiredCols.filter (fun c => !(decide (c ∈ (coercedOf raw).cols)))).isEmpty
      = false := by
    cases hmiss : requiredCols.filter (fun c => !(decide (c ∈ (coercedOf raw).cols))) with
    | nil => exact absurd hmiss hne
    | cons a t => rfl
  simp [cleanerMain, hb]

/-- A raw frame whose only header renames to `researcher_name`. -/
def c10raw : RawFrame := { cols := ["Name"], rows := [["x"]] }

theorem c10_cleaner_missing_columns_witness :
    ("document_count" ∉ (coercedOf c10raw).cols ∨
      "total_citations" ∉ (coercedOf c10raw).cols) ∧
    cleanerMain c10raw =
      ([], Except.error (CleanErr.keyError
        (requiredCols.filter (fun c => !(decide (c ∈ (coercedOf c10raw).cols)))))) :=
  ⟨Or.inl (by decide), c10_cleaner_missing_columns c10raw (Or.inl (by decide))⟩

/-! ### Claim C8 -/

/-- Claim C8: for every non-empty loaded dataset the prediction curve is
exactly 100 points; its predictor values start at the observed minimum
`document_count`, end at the observed maximum, and are evenly spaced
(consecutive gap `(max − min)/99`); and every point's response is
`intercept + slope × predictor`.  The endpoints really are the minimum and
maximum of the observed values. -/
theorem c8_prediction_curve :
    ∀ df : List Rec, df ≠ [] →
      (predictionCurve df).length = 100 ∧
      (predictionCurve df).getD 0 (0, 0) =
        (colMinDoc df, fitIntercept df + fitSlope df * colMinDoc df) ∧
      (predictionCurve df).getD 99 (0, 0) =
        (colMaxDoc df, fitIntercept df + fitSlope df * colMaxDoc df) ∧
      (∀ i : ℕ, i + 1 < 100 →
        ((predictionCurve df).getD (i + 1) (0, 0)).1 -
          ((predictionCurve df).getD i (0, 0)).1 =
          (colMaxDoc df - colMinDoc df) / 99) ∧
      (∀ p ∈ predictionCurve df, p.2 = fitIntercept df + fitSlope df * p.1) ∧
      colMinDoc df ∈ df.map Rec.document_count ∧
      (∀ v ∈ df.map Rec.document_count, colMinDoc df ≤ v) ∧
      colMaxDoc df ∈ df.map Rec.document_count ∧
      (∀ v ∈ df.map Rec.document_count, v ≤ colMaxDoc df) := by
  intro df h
  obtain ⟨hminmem, hminle⟩ := colMinDoc_spec df h
  obtain ⟨hmaxmem, hmaxle⟩ := colMaxDoc_spec df h
  refine ⟨?_, ?_, ?_, ?_, ?_, hminmem, hminle, hmaxmem, hmaxle⟩
  · rw [predictionCurve, List.length_map, linspace, List.length_map, List.length_range]
  · rw [predictionCurve_getD df 0 (by norm_num)]
    norm_num
  · rw [predictionCurve_getD df 99 (by norm_num)]
    have h99 : colMinDoc df + (colMaxDoc df - colMinDoc df) * ((99 : ℕ) : ℚ) / 99 =
        colMaxDoc df := by
      push_cast
      field_simp
    rw [h99]
  · intro i hi
    rw [predictionCurve_getD df (i + 1) hi, predictionCurve_getD df i (by omega)]
    push_cast
    field_simp
    ring
  · intro p hp
    rw [predictionCurve] at hp
    obtain ⟨t, ht, rfl⟩ := List.mem_map.mp hp
    rfl

/-- A two-record dataset for instantiating the curve theorem. -/
def c8df : List Rec := [⟨"a", 1, 2⟩, ⟨"b", 3, 5⟩]

theorem c8_prediction_curve_witness :
    c8df ≠ [] ∧ (predictionCurve c8df).length = 100 :=
  ⟨by decide, (c8_prediction_curve c8df (by decide)).1⟩

end BiblioReg
